import Mathlib

/-!
Formal model of the MeloVue music-video generator.

The frontend generation flow of `src/frontend/app/page.tsx`
(`handleGenerate`: upload, job creation, status polling, the
simulated-completion timeout and the demo fallback interval) is
embedded as explicit state transformers over a record of the React
state, keeping JavaScript truthiness where the code relies on it.
The home page of `src/app/page.tsx` (image URL fields, `isValidUrl`)
is embedded the same way.  The backend Segmenter and Scene Planner
are not part of the repository sources (only the backend README is
present); they are modelled from the specification where a claim
needs them, and each such definition is marked in its doc comment.
-/

namespace MeloVue

/-- One poll response from `GET /jobs/:id` as the frontend reads it:
the code inspects `statusData.status`, `statusData.progress`,
`statusData.message`, `statusData.error` and `statusData.video_url`;
`final_video_url` is the field name the job-status contract of the
specification exposes, carried here so that its handling can be
stated. -/
structure StatusData where
  status : String
  progress : ℚ
  message : String
  error : String
  video_url : Option String
  final_video_url : Option String
  deriving DecidableEq

/-- The React state of `Home` in `src/frontend/app/page.tsx` touched
by `handleGenerate`; `polling` records whether the `setInterval` poll
loop is still active. -/
structure UIState where
  isGenerating : Bool
  generationStatus : String
  progress : ℚ
  statusMessage : String
  errorMessage : String
  videoUrl : Option String
  polling : Bool
  deriving DecidableEq

/-- JavaScript truthiness of an optional string field: `undefined`
and the empty string are falsy. -/
def jsTruthyStr : Option String → Bool
  | some u => !(u == "")
  | none => false

/-- JavaScript `a || b` where `a` is a numeric record lookup that may
miss (`undefined`) and `0` is falsy. -/
def jsOrQ : Option ℚ → ℚ → ℚ
  | some x, y => if x = 0 then y else x
  | none, y => y

/-- JavaScript `s || t` on strings, where the empty string is falsy. -/
def jsOrStr (s t : String) : String :=
  if s = "" then t else s

/-- The literal `progressMap` object of the poll callback in
`handleGenerate`. -/
def progressMap (s : String) : Option ℚ :=
  if s = "queued" then some 30
  else if s = "running" then some 50
  else if s = "generating_scenes" then some 70
  else if s = "composing" then some 90
  else none

/-- One execution of the poll callback of `handleGenerate` on a
response `d`.  On `done` the interval is cleared, progress is set to
100, the phase becomes `complete`, and `videoUrl` is set from the
truthy `video_url` field.  On `failed` the interval is cleared and the
callback throws; the throw is caught by the callback body into its own
`catch`, which only logs, so no further state is written.  Otherwise
progress is set from `progressMap` with fallback
`statusData.progress * 100`, and the status message is updated. -/
def pollTick (st : UIState) (d : StatusData) : UIState :=
  if d.status = "done" then
    { st with polling := false, progress := 100,
              generationStatus := "complete", isGenerating := false,
              videoUrl := if jsTruthyStr d.video_url then d.video_url
                          else st.videoUrl }
  else if d.status = "failed" then
    { st with polling := false }
  else
    { st with progress := jsOrQ (progressMap d.status) (d.progress * 100),
              statusMessage := jsOrStr d.message "Processing..." }

/-- The `setTimeout` handler registered by `handleGenerate` right
after the poll loop: after 8 seconds it clears the poll interval and
marks the job complete with the hard-coded demo video URL, whatever
the poll responses were. -/
def simulatedCompletion (st : UIState) : UIState :=
  { st with polling := false, progress := 100,
            generationStatus := "complete", isGenerating := false,
            videoUrl := some "https://www.w3schools.com/html/mov_bbb.mp4" }

/-- Progress values stored by the poll loop over a run of responses:
`done` stores 100 and stops, `failed` stops without storing, any other
status stores the mapped value with the `progress * 100` fallback. -/
def pollRun : List StatusData → List ℚ
  | [] => []
  | d :: ds =>
    if d.status = "done" then [100]
    else if d.status = "failed" then []
    else jsOrQ (progressMap d.status) (d.progress * 100) :: pollRun ds

/-- Progress values stored by the demo fallback interval of
`handleGenerate`: a local accumulator grows by `Math.random() * 15`
per tick; once it reaches 100 the interval stores 100 and stops,
otherwise it stores the accumulator. -/
def demoRun (cp : ℚ) : List ℚ → List ℚ
  | [] => []
  | r :: rs =>
    if 100 ≤ cp + r then [100]
    else (cp + r) :: demoRun (cp + r) rs

/-- The six job statuses of the backend state machine in the
specification. -/
def recognizedStatus (s : String) : Bool :=
  s == "queued" || s == "running" || s == "generating_scenes" ||
    s == "composing" || s == "done" || s == "failed"

/-- Position of a status in the forward-only state machine order. -/
def statusRank (s : String) : Nat :=
  if s = "queued" then 0
  else if s = "running" then 1
  else if s = "generating_scenes" then 2
  else if s = "composing" then 3
  else if s = "done" then 4
  else 5

/-- Relation between successive poll responses of a backend that
follows the state machine of the specification: the status moves
forward, with `failed` reachable from any state. -/
def pollOrder (a b : StatusData) : Prop :=
  statusRank a.status ≤ statusRank b.status ∨ b.status = "failed"

instance (a b : StatusData) : Decidable (pollOrder a b) :=
  inferInstanceAs
    (Decidable (statusRank a.status ≤ statusRank b.status ∨
      b.status = "failed"))

/-- Frontend state right after job creation in `handleGenerate`:
phase `processing`, progress 30, poll loop active, no video URL. -/
def procState : UIState :=
  { isGenerating := true, generationStatus := "processing",
    progress := 30, statusMessage := "Generating your music video...",
    errorMessage := "", videoUrl := none, polling := true }

/-- A poll response reporting the job still running. -/
def runningPoll : StatusData :=
  { status := "running", progress := 1/2, message := "", error := "",
    video_url := none, final_video_url := none }

/-- A poll response reporting the job failed, carrying the
human-readable error message in its `error` field. -/
def failedPoll : StatusData :=
  { status := "failed", progress := 1/2, message := "",
    error := "Scene validation failed", video_url := none,
    final_video_url := none }

/-- A done poll response following the job-status contract of the
specification: the video URL is carried in `final_video_url`. -/
def doneSpecPoll : StatusData :=
  { status := "done", progress := 1, message := "", error := "",
    video_url := none,
    final_video_url := some "https://storage.example.com/final.mp4" }

/-- A done poll response carrying the video URL in the `video_url`
field the frontend actually reads. -/
def doneVidPoll : StatusData :=
  { status := "done", progress := 1, message := "", error := "",
    video_url := some "https://cdn.example.com/v.mp4",
    final_video_url := none }

/-- A poll response reporting the `composing` stage. -/
def composingPoll : StatusData :=
  { status := "composing", progress := 0, message := "", error := "",
    video_url := none, final_video_url := none }

/-- A poll response carrying a status outside the state machine of the
specification, together with a progress fraction. -/
def verifyingPoll : StatusData :=
  { status := "verifying", progress := 2/5, message := "", error := "",
    video_url := none, final_video_url := none }

end MeloVue

namespace MeloVue

/-- A time segment of the audio, per the data model of the
specification: a window `[start_s, end_s)` with a best-effort lyric
snippet. -/
structure Segment where
  start_s : ℚ
  end_s : ℚ
  snippet : String
  deriving DecidableEq

/-- Modelled from the spec: the backend Segmenter (`build_segments`,
spec 4.1) is not among the repository sources, only the backend README
is.  This is fallback policy (c) for an absent transcript: fixed
windows of the configured length starting at 0, empty snippets, the
final window truncated to the audio duration rather than padded. -/
def build_segments (duration_s window_s : ℚ) : List Segment :=
  (List.range ⌈duration_s / window_s⌉.toNat).map fun i =>
    { start_s := (i : ℚ) * window_s,
      end_s := min (((i : ℚ) + 1) * window_s) duration_s,
      snippet := "" }

/-- A scene: one per segment, carrying a generation directive and the
segment boundaries, per the data model of the specification. -/
structure Scene where
  start_s : ℚ
  end_s : ℚ
  prompt : String
  deriving DecidableEq

/-- Detail of a scene-validation failure: either the remote scene
count differs from the segment count, or some scene carries boundaries
different from its source segment. -/
inductive SceneValidationError where
  | countMismatch (expected actual : Nat)
  | boundaryMismatch (index : Nat)
      (expectedStart expectedEnd actualStart actualEnd : ℚ)
  deriving DecidableEq

/-- Modelled from the spec: first boundary mismatch between segments
and remote scenes, walking both lists in step from position `i`. -/
def findBoundaryMismatch : Nat → List Segment → List Scene →
    Option SceneValidationError
  | _, [], [] => none
  | i, seg :: segs, sc :: scs =>
    if sc.start_s = seg.start_s ∧ sc.end_s = seg.end_s then
      findBoundaryMismatch (i + 1) segs scs
    else
      some (.boundaryMismatch i seg.start_s seg.end_s sc.start_s sc.end_s)
  | i, _, _ => some (.countMismatch i i)

/-- Modelled from the spec: local validation of untrusted remote scene
output (spec 4.2): the scene count must equal the segment count and
every boundary must match its source segment exactly. -/
def validate_scenes (segs : List Segment) (scs : List Scene) :
    Option SceneValidationError :=
  if scs.length ≠ segs.length then
    some (.countMismatch segs.length scs.length)
  else
    findBoundaryMismatch 0 segs scs

/-- Modelled from the spec: `plan_scenes` (spec 4.2) accepts the
remote scene list verbatim when validation passes and otherwise fails
the job with a `SceneValidationError`; timestamps are never
repaired. -/
def plan_scenes (segs : List Segment) (remote : List Scene) :
    Except SceneValidationError (List Scene) :=
  match validate_scenes segs remote with
  | none => .ok remote
  | some e => .error e

/-- A concrete segment used to exercise `plan_scenes`. -/
def segA : Segment := ⟨0, 4, "la"⟩

/-- A remote scene matching `segA` exactly. -/
def scA : Scene := ⟨0, 4, "sunrise over water"⟩

/-- A remote scene whose end boundary disagrees with `segA`. -/
def scB : Scene := ⟨0, 5, "sunrise over water"⟩

end MeloVue

namespace MeloVue

/-- The result of the URL constructor, as far as the code inspects it:
only the `protocol` field (scheme plus colon) is read. -/
structure URLRecord where
  protocol : String
  deriving DecidableEq

/-- `isValidUrl` from `src/app/page.tsx` (and, identically, from
`src/components/UrlInputBox.tsx`): empty and whitespace-only input is
accepted without parsing; otherwise the string must parse
(`new URL(url)`, abstracted here as the `parseURL` argument) with
protocol exactly `http:` or `https:`. -/
def isValidUrl (parseURL : String → Option URLRecord) (url : String) :
    Bool :=
  if url.trim = "" then true
  else
    match parseURL url with
    | some u => u.protocol == "http:" || u.protocol == "https:"
    | none => false

/-- The two image-field state arrays of `Home` in
`src/app/page.tsx`. -/
structure HomeImagesState where
  imageUrls : List String
  imageErrors : List Bool
  deriving DecidableEq

/-- The initial image-field state: one empty URL, no error. -/
def initHomeImages : HomeImagesState := ⟨[""], [false]⟩

/-- `handleImageUrlChange`: write the field at `index` and record
whether the new value fails `isValidUrl`. -/
def handleImageUrlChange (parseURL : String → Option URLRecord)
    (st : HomeImagesState) (index : Nat) (value : String) :
    HomeImagesState :=
  ⟨st.imageUrls.set index value,
   st.imageErrors.set index (!isValidUrl parseURL value)⟩

/-- `addImageField`: append one empty URL and one cleared error
flag. -/
def addImageField (st : HomeImagesState) : HomeImagesState :=
  ⟨st.imageUrls ++ [""], st.imageErrors ++ [false]⟩

/-- `removeImageField`: with more than one field, drop index `index`
from both arrays; with a single field, reset both arrays to the
initial single entry. -/
def removeImageField (st : HomeImagesState) (index : Nat) :
    HomeImagesState :=
  if 1 < st.imageUrls.length then
    ⟨st.imageUrls.eraseIdx index, st.imageErrors.eraseIdx index⟩
  else
    ⟨[""], [false]⟩

/-- The invariant of the image-field state: the two arrays have equal
length and hold at least one entry. -/
def imagesInv (st : HomeImagesState) : Prop :=
  st.imageUrls.length = st.imageErrors.length ∧ 1 ≤ st.imageUrls.length

/-- `isFormValid` from `src/frontend/app/page.tsx`: both an audio file
and an image file are selected (files are opaque, modelled by their
names). -/
def isFormValid (audioFile imageFile : Option String) : Bool :=
  audioFile.isSome && imageFile.isSome

/-- The `disabled` attribute of the generate button:
`!isFormValid || isGenerating`. -/
def generateButtonDisabled (audioFile imageFile : Option String)
    (isGenerating : Bool) : Bool :=
  !isFormValid audioFile imageFile || isGenerating

/-- The upload response body, carrying the stored file URLs. -/
structure UploadData where
  audio_url : String
  image_url : String
  deriving DecidableEq

/-- The backend requests `handleGenerate` can issue before polling. -/
inductive BackendRequest where
  | upload (audio image : String)
  | createJob (audio_url image_url : String)
  deriving DecidableEq

/-- The network requests issued by `handleGenerate`, as a function of
the selected files and of the upload outcome: the guard
`if (!audioFile || !imageFile) return` precedes every request, and the
job-creation request is issued only after a successful upload
response. -/
def handleGenerateRequests (audioFile imageFile : Option String)
    (uploadResult : Option UploadData) : List BackendRequest :=
  match audioFile, imageFile with
  | some a, some i =>
    .upload a i ::
      (match uploadResult with
       | some up => [.createJob up.audio_url up.image_url]
       | none => [])
  | _, _ => []

/-- The immediate state writes of `handleGenerate`: behind the guard
it marks generation started and enters the `uploading` phase; with a
missing file it returns before writing any state. -/
def handleGenerateInit (audioFile imageFile : Option String)
    (st : UIState) : UIState :=
  match audioFile, imageFile with
  | some _, some _ =>
    { st with isGenerating := true, generationStatus := "uploading",
              progress := 0, statusMessage := "Uploading files...",
              errorMessage := "" }
  | _, _ => st

end MeloVue

namespace MeloVue

/-- The stored progress of a recognized non-terminal poll response is
the mapped value `20 * rank + 30`, and its rank is at most 3. -/
theorem pollValue_of_nonterminal (d : StatusData)
    (hr : recognizedStatus d.status = true)
    (hd : d.status ≠ "done") (hf : d.status ≠ "failed") :
    jsOrQ (progressMap d.status) (d.progress * 100) =
      20 * (statusRank d.status : ℚ) + 30 ∧ statusRank d.status ≤ 3 := by
  simp only [recognizedStatus, Bool.or_eq_true, beq_iff_eq] at hr
  rcases hr with ((((h | h) | h) | h) | h) | h
  · rw [h]
    refine ⟨?_, by simp [statusRank]⟩
    simp [progressMap, statusRank]
    norm_num [jsOrQ]
  · rw [h]
    refine ⟨?_, by simp [statusRank]⟩
    simp [progressMap, statusRank]
    norm_num [jsOrQ]
  · rw [h]
    refine ⟨?_, by simp [statusRank]⟩
    simp [progressMap, statusRank]
    norm_num [jsOrQ]
  · rw [h]
    refine ⟨?_, by simp [statusRank]⟩
    simp [progressMap, statusRank]
    norm_num [jsOrQ]
  · exact absurd h hd
  · exact absurd h hf

/-- Over recognized poll responses whose statuses move forward through
the state machine, the progress values stored by the poll loop are
nondecreasing. -/
theorem pollRun_chain (ds : List StatusData)
    (hrec : ∀ d ∈ ds, recognizedStatus d.status = true)
    (hmono : List.Chain' pollOrder ds) :
    List.Chain' (· ≤ ·) (pollRun ds) := by
  induction ds with
  | nil => simp [pollRun]
  | cons d ds ih =>
    by_cases hd : d.status = "done"
    · simp [pollRun, hd]
    by_cases hf : d.status = "failed"
    · simp [pollRun, hd, hf]
    have hr : recognizedStatus d.status = true := hrec d (by simp)
    obtain ⟨hval, hrank⟩ := pollValue_of_nonterminal d hr hd hf
    have hrest : List.Chain' (· ≤ ·) (pollRun ds) :=
      ih (fun x hx => hrec x (List.mem_cons_of_mem d hx)) hmono.tail
    rw [pollRun, if_neg hd, if_neg hf, List.chain'_cons']
    refine ⟨?_, hrest⟩
    intro y hy
    cases ds with
    | nil => simp [pollRun] at hy
    | cons d2 ds2 =>
      have hrel : pollOrder d d2 := (List.chain'_cons.mp hmono).1
      by_cases hd2 : d2.status = "done"
      · simp [pollRun, hd2] at hy
        subst hy
        rw [hval]
        have h3 : (statusRank d.status : ℚ) ≤ 3 := by exact_mod_cast hrank
        linarith
      by_cases hf2 : d2.status = "failed"
      · simp [pollRun, hd2, hf2] at hy
      · have hr2 : recognizedStatus d2.status = true := hrec d2 (by simp)
        obtain ⟨hval2, _⟩ := pollValue_of_nonterminal d2 hr2 hd2 hf2
        simp only [pollRun, if_neg hd2, if_neg hf2, List.head?_cons,
          Option.mem_def, Option.some.injEq] at hy
        subst hy
        rw [hval, hval2]
        rcases hrel with hle | hfail
        · have hc : (statusRank d.status : ℚ) ≤
              (statusRank d2.status : ℚ) := by exact_mod_cast hle
          linarith
        · exact absurd hfail hf2

/-- The demo fallback interval stores a nondecreasing progress
sequence whenever its random increments are nonnegative. -/
theorem demoRun_chain (rs : List ℚ) (cp : ℚ) (hcp : cp ≤ 100)
    (hrs : ∀ r ∈ rs, 0 ≤ r) :
    List.Chain' (· ≤ ·) (cp :: demoRun cp rs) := by
  induction rs generalizing cp with
  | nil => simp [demoRun]
  | cons r rs ih =>
    have h0 : 0 ≤ r := hrs r (by simp)
    rw [demoRun]
    split
    · exact List.chain'_cons.mpr ⟨hcp, List.chain'_singleton _⟩
    · rename_i hlt
      have h100 : cp + r ≤ 100 := le_of_lt (lt_of_not_le hlt)
      exact List.chain'_cons.mpr
        ⟨by linarith, ih (cp + r) h100 (fun x hx => hrs x (by simp [hx]))⟩

/-- C2: the progress value a polling client observes never decreases:
over any run of poll responses whose statuses are the recognized ones
and move forward through the state machine (as the specification
requires of the backend), the values stored in the progress state by
the status-polling loop of `handleGenerate` are nondecreasing, and the
values stored by its demo fallback loop are nondecreasing for every
sequence of nonnegative random increments from an accumulator at or
below 100. -/
theorem progress_monotone_in_loops (ds : List StatusData) (cp : ℚ)
    (rs : List ℚ)
    (hrec : ∀ d ∈ ds, recognizedStatus d.status = true)
    (hmono : List.Chain' pollOrder ds)
    (hcp : cp ≤ 100) (hrs : ∀ r ∈ rs, 0 ≤ r) :
    List.Chain' (· ≤ ·) (pollRun ds) ∧
      List.Chain' (· ≤ ·) (cp :: demoRun cp rs) :=
  ⟨pollRun_chain ds hrec hmono, demoRun_chain rs cp hcp hrs⟩

/-- Witness for C2 at a concrete three-response run and a concrete
demo-increment list. -/
theorem progress_monotone_in_loops_witness :
    List.Chain' (· ≤ ·)
      (pollRun [⟨"queued", 0, "", "", none, none⟩,
                ⟨"running", 0, "", "", none, none⟩,
                ⟨"done", 1, "", "", some "u", none⟩]) ∧
      List.Chain' (· ≤ ·) ((0:ℚ) :: demoRun 0 [10, 50, 45]) :=
  progress_monotone_in_loops _ _ _
    (by decide)
    (by
      refine List.chain'_cons.mpr ⟨?_, List.chain'_cons.mpr
        ⟨?_, List.chain'_singleton _⟩⟩ <;> exact Or.inl (by decide))
    (by norm_num)
    (by intro r hr; fin_cases hr <;> norm_num)

/-- C1: the claim fails on the code: the simulated-completion timeout
registered by `handleGenerate` sets the `videoUrl` state to the
hard-coded demo URL even though no status poll returned `done`; here
the only poll response reports `running`, leaving `videoUrl` unset,
and the timeout then publishes the placeholder URL as the final
video. -/
theorem videoUrl_set_without_done_poll :
    (pollTick procState runningPoll).videoUrl = none ∧
    runningPoll.status ≠ "done" ∧
    (simulatedCompletion (pollTick procState runningPoll)).videoUrl =
      some "https://www.w3schools.com/html/mov_bbb.mp4" := by
  decide

/-- C3: the claim fails on the code: on a poll response with status
`failed`, the callback clears the interval, but the error it throws is
caught by the callback body into its own `catch`, which only logs; the
UI therefore stays in the `processing` phase with an empty error
message instead of transitioning to the error state and showing the
message carried in the response. -/
theorem failed_poll_leaves_ui_unchanged :
    (pollTick procState failedPoll).polling = false ∧
    (pollTick procState failedPoll).generationStatus = "processing" ∧
    (pollTick procState failedPoll).errorMessage = "" ∧
    failedPoll.error = "Scene validation failed" := by
  decide

/-- C6: the poll callback sets the displayed progress to the fixed
per-state value (queued 30, running 50, generating_scenes 70,
composing 90), to 100 on `done`, and for any status outside the state
machine falls back to the response progress fraction times 100. -/
theorem poll_progress_mapping (st : UIState) (d : StatusData) :
    (d.status = "queued" → (pollTick st d).progress = 30) ∧
    (d.status = "running" → (pollTick st d).progress = 50) ∧
    (d.status = "generating_scenes" → (pollTick st d).progress = 70) ∧
    (d.status = "composing" → (pollTick st d).progress = 90) ∧
    (d.status = "done" → (pollTick st d).progress = 100) ∧
    (recognizedStatus d.status = false →
      (pollTick st d).progress = d.progress * 100) := by
  refine ⟨fun h => ?_, fun h => ?_, fun h => ?_, fun h => ?_,
    fun h => ?_, fun h => ?_⟩
  · simp [pollTick, h, progressMap]
    norm_num [jsOrQ]
  · simp [pollTick, h, progressMap]
    norm_num [jsOrQ]
  · simp [pollTick, h, progressMap]
    norm_num [jsOrQ]
  · simp [pollTick, h, progressMap]
    norm_num [jsOrQ]
  · simp [pollTick, h]
  · simp only [recognizedStatus, Bool.or_eq_false_iff,
      beq_eq_false_iff_ne, ne_eq] at h
    obtain ⟨⟨⟨⟨⟨h1, h2⟩, h3⟩, h4⟩, h5⟩, h6⟩ := h
    simp [pollTick, progressMap, jsOrQ, h1, h2, h3, h4, h5, h6]

/-- Witness for C6 at a `composing` response and at a response with an
unrecognized status. -/
theorem poll_progress_mapping_witness :
    (pollTick procState composingPoll).progress = 90 ∧
    (pollTick procState verifyingPoll).progress =
      verifyingPoll.progress * 100 :=
  ⟨(poll_progress_mapping procState composingPoll).2.2.2.1 rfl,
   (poll_progress_mapping procState verifyingPoll).2.2.2.2.2 (by decide)⟩

/-- C7 counterexample: on a `done` response that carries the video URL
in the `final_video_url` field named by the job-status contract of the
specification, the frontend leaves `videoUrl` unset: the code reads
the `video_url` field instead. -/
theorem done_poll_ignores_final_video_url :
    doneSpecPoll.status = "done" ∧
    doneSpecPoll.final_video_url =
      some "https://storage.example.com/final.mp4" ∧
    (pollTick procState doneSpecPoll).videoUrl = none := by
  decide

/-- C7 (amended): when a status poll reports the job done, the video
URL the frontend displays is taken from the `video_url` field of the
response, and only when that field is present and non-empty; the
`final_video_url` field is never read. -/
theorem done_poll_video_url_source (st : UIState) (d : StatusData)
    (h : d.status = "done") :
    (pollTick st d).videoUrl =
      (if jsTruthyStr d.video_url then d.video_url else st.videoUrl) ∧
    (∀ u, pollTick st { d with final_video_url := u } = pollTick st d) := by
  constructor
  · simp [pollTick, h]
  · intro u; rfl

/-- Witness for the amended C7 at a done response carrying a
`video_url` value. -/
theorem done_poll_video_url_source_witness :
    (pollTick procState doneVidPoll).videoUrl =
      some "https://cdn.example.com/v.mp4" :=
  ((done_poll_video_url_source procState doneVidPoll rfl).1).trans
    (by decide)

/-- C4: for audio duration 17.3 seconds, window length 4.0 seconds and
no transcript, `build_segments` returns exactly the five segments
[0,4), [4,8), [8,12), [12,16), [16,17.3), each with an empty snippet,
the final window truncated to the duration rather than padded. -/
theorem build_segments_scenario1 :
    build_segments (173/10) 4 =
      [⟨0, 4, ""⟩, ⟨4, 8, ""⟩, ⟨8, 12, ""⟩, ⟨12, 16, ""⟩,
       ⟨16, 173/10, ""⟩] := by
  have h : (⌈(173:ℚ)/10/4⌉).toNat = 5 := by
    have h5 : ⌈(173:ℚ)/10/4⌉ = (5:ℤ) := by
      rw [Int.ceil_eq_iff]
      norm_num
    rw [h5]; rfl
  rw [build_segments, h]
  simp [List.range_succ, Segment.mk.injEq, min_def]
  norm_num

/-- Walking the two lists in step finds no mismatch exactly when every
scene carries the boundaries of its source segment. -/
theorem findBoundaryMismatch_eq_none (segs : List Segment)
    (scs : List Scene) (i : Nat) (hlen : scs.length = segs.length) :
    findBoundaryMismatch i segs scs = none ↔
      ∀ p ∈ segs.zip scs,
        p.2.start_s = p.1.start_s ∧ p.2.end_s = p.1.end_s := by
  induction segs generalizing scs i with
  | nil =>
    cases scs with
    | nil => simp [findBoundaryMismatch]
    | cons sc scs => exact absurd hlen (by simp)
  | cons seg segs ih =>
    cases scs with
    | nil => exact absurd hlen (by simp)
    | cons sc scs =>
      have hlen2 : scs.length = segs.length := by simpa using hlen
      rw [findBoundaryMismatch]
      split
      · rename_i h
        rw [ih scs (i + 1) hlen2]
        simp [List.zip_cons_cons, h.1, h.2]
      · rename_i h
        refine iff_of_false (by simp) ?_
        intro hall
        exact h (hall (seg, sc) (by simp [List.zip_cons_cons]))

/-- Validation passes exactly when the scene count equals the segment
count and every boundary matches its source segment. -/
theorem validate_scenes_eq_none (segs : List Segment)
    (scs : List Scene) :
    validate_scenes segs scs = none ↔
      (scs.length = segs.length ∧
        ∀ p ∈ segs.zip scs,
          p.2.start_s = p.1.start_s ∧ p.2.end_s = p.1.end_s) := by
  unfold validate_scenes
  split
  · rename_i h
    exact iff_of_false (by simp) (fun hc => h hc.1)
  · rename_i h
    have hlen : scs.length = segs.length := not_not.mp h
    rw [findBoundaryMismatch_eq_none segs scs 0 hlen]
    simp [hlen]

/-- C5: `plan_scenes` either accepts the remote scene list verbatim,
exactly when the scene count equals the segment count and every scene
boundary matches its source segment pairwise, or fails with a
`SceneValidationError`; no partially valid scene set is accepted and
no timestamps are repaired. -/
theorem plan_scenes_exact_or_fail (segs : List Segment)
    (remote : List Scene) :
    (∀ scs, plan_scenes segs remote = .ok scs → scs = remote) ∧
    (plan_scenes segs remote = .ok remote ↔
      (remote.length = segs.length ∧
        ∀ p ∈ segs.zip remote,
          p.2.start_s = p.1.start_s ∧ p.2.end_s = p.1.end_s)) ∧
    (¬(remote.length = segs.length ∧
        ∀ p ∈ segs.zip remote,
          p.2.start_s = p.1.start_s ∧ p.2.end_s = p.1.end_s) →
      ∃ e, plan_scenes segs remote = .error e) := by
  cases hv : validate_scenes segs remote with
  | none =>
    have hm := (validate_scenes_eq_none segs remote).mp hv
    refine ⟨?_, ?_, ?_⟩
    · intro scs hok
      simp [plan_scenes, hv] at hok
      exact hok.symm
    · exact iff_of_true (by simp [plan_scenes, hv]) hm
    · intro hn; exact absurd hm hn
  | some e =>
    have hm : ¬(remote.length = segs.length ∧
        ∀ p ∈ segs.zip remote,
          p.2.start_s = p.1.start_s ∧ p.2.end_s = p.1.end_s) := by
      intro hc
      have hnone := (validate_scenes_eq_none segs remote).mpr hc
      rw [hv] at hnone
      exact Option.noConfusion hnone
    refine ⟨?_, ?_, ?_⟩
    · intro scs hok
      simp [plan_scenes, hv] at hok
    · exact iff_of_false (by simp [plan_scenes, hv]) hm
    · intro _; exact ⟨e, by simp [plan_scenes, hv]⟩

/-- Witness for C5: a matching remote scene list is accepted verbatim
and a mismatching one makes the job fail. -/
theorem plan_scenes_exact_or_fail_witness :
    plan_scenes [segA] [scA] = .ok [scA] ∧
    (∃ e, plan_scenes [segA] [scB] = .error e) :=
  ⟨(plan_scenes_exact_or_fail [segA] [scA]).2.1.mpr
      (by
        refine ⟨rfl, ?_⟩
        simp [List.zip_cons_cons, segA, scA]),
   (plan_scenes_exact_or_fail [segA] [scB]).2.2
      (by
        rintro ⟨-, hall⟩
        have h2 := hall (segA, scB) (by simp [List.zip_cons_cons])
        norm_num [segA, scB] at h2)⟩

/-- C8: `isValidUrl` accepts exactly the strings that trim to empty
and the strings the URL constructor parses with protocol `http:` or
`https:`; every other string, including one parsing with another
scheme, is rejected. -/
theorem isValidUrl_iff (parseURL : String → Option URLRecord)
    (url : String) :
    isValidUrl parseURL url = true ↔
      (url.trim = "" ∨
        ∃ u, parseURL url = some u ∧
          (u.protocol = "http:" ∨ u.protocol = "https:")) := by
  unfold isValidUrl
  split
  · rename_i h; simp [h]
  · rename_i h
    cases hp : parseURL url with
    | none => simp [h, hp]
    | some u => simp [h, hp]

/-- Length of `eraseIdx`, with no bound on the index. -/
theorem length_eraseIdx_eq {α : Type} (l : List α) (i : Nat) :
    (l.eraseIdx i).length =
      if i < l.length then l.length - 1 else l.length := by
  induction l generalizing i with
  | nil => simp [List.eraseIdx]
  | cons a l ih =>
    cases i with
    | zero => simp [List.eraseIdx]
    | succ n =>
      simp only [List.eraseIdx, List.length_cons, ih]
      by_cases h : n < l.length
      · rw [if_pos h, if_pos (by omega)]
        omega
      · rw [if_neg h, if_neg (by omega)]

/-- C9: the image URL and error arrays of the home page stay in step:
the initial state has one entry in each, and the change, add and
remove operations each preserve equal lengths and at least one entry,
with removal of the sole remaining field resetting both arrays to the
single initial entry. -/
theorem home_images_invariant (parseURL : String → Option URLRecord)
    (st : HomeImagesState) (i : Nat) (v : String) (h : imagesInv st) :
    imagesInv initHomeImages ∧
    imagesInv (handleImageUrlChange parseURL st i v) ∧
    imagesInv (addImageField st) ∧
    imagesInv (removeImageField st i) ∧
    (st.imageUrls.length = 1 → removeImageField st i = initHomeImages) := by
  obtain ⟨hlen, hpos⟩ := h
  refine ⟨⟨rfl, le_refl 1⟩, ?_, ?_, ?_, ?_⟩
  · exact ⟨by simp [handleImageUrlChange, hlen],
      by simpa [handleImageUrlChange] using hpos⟩
  · exact ⟨by simp [addImageField, hlen], by simp [addImageField]⟩
  · rw [removeImageField]
    split
    · rename_i hgt
      refine ⟨?_, ?_⟩
      · simp [length_eraseIdx_eq, hlen]
      · simp only [length_eraseIdx_eq]
        split <;> omega
    · exact ⟨rfl, le_refl 1⟩
  · intro h1
    rw [removeImageField, if_neg (by omega)]
    rfl

/-- Witness for C9 at the one-field state. -/
theorem home_images_invariant_witness :
    imagesInv initHomeImages ∧
    imagesInv (handleImageUrlChange (fun _ => none) ⟨["x"], [false]⟩ 0 "y") ∧
    imagesInv (addImageField ⟨["x"], [false]⟩) ∧
    imagesInv (removeImageField ⟨["x"], [false]⟩ 0) ∧
    ((⟨["x"], [false]⟩ : HomeImagesState).imageUrls.length = 1 →
      removeImageField ⟨["x"], [false]⟩ 0 = initHomeImages) :=
  home_images_invariant (fun _ => none) ⟨["x"], [false]⟩ 0 "y"
    ⟨rfl, le_refl 1⟩

/-- C10: with either file missing, `handleGenerate` issues no upload
and no job-creation request and leaves the state unchanged, and the
generate button is disabled whatever the `isGenerating` flag. -/
theorem generate_requires_both_files (audioFile imageFile : Option String)
    (up : Option UploadData) (st : UIState) (g : Bool)
    (h : audioFile = none ∨ imageFile = none) :
    handleGenerateRequests audioFile imageFile up = [] ∧
    handleGenerateInit audioFile imageFile st = st ∧
    isFormValid audioFile imageFile = false ∧
    generateButtonDisabled audioFile imageFile g = true := by
  rcases h with h | h
  · subst h
    cases imageFile <;>
      simp [handleGenerateRequests, handleGenerateInit, isFormValid,
        generateButtonDisabled]
  · subst h
    cases audioFile <;>
      simp [handleGenerateRequests, handleGenerateInit, isFormValid,
        generateButtonDisabled]

/-- Witness for C10 with a missing audio file. -/
theorem generate_requires_both_files_witness :
    handleGenerateRequests none (some "cover.png") none = [] ∧
    handleGenerateInit none (some "cover.png") procState = procState ∧
    isFormValid none (some "cover.png") = false ∧
    generateButtonDisabled none (some "cover.png") false = true :=
  generate_requires_both_files none (some "cover.png") none procState false
    (Or.inl rfl)

end MeloVue
